import Mathlib

/-!
# S3-File-Uploader: the upload-and-record pipeline of `main.go`

A shallow embedding of `src/main.go` (with `src/models/file.go`).  The program reads its
settings from the process environment, connects to a database, walks a directory with
`filepath.Walk`, and for each non-directory entry calls `uploadToS3`, creates a `models.File`
row and stores the row's identifier in the map `fileNameAndID`.

Everything outside the process (the environment variables, the database, the object store, the
file tree) is a `World`: a record of the answers the outside gives.  The code is embedded as
functions over an explicit `State` holding the effects made so far.  A Go run-time panic and a
`log.Fatal` exit are explicit results, never silently dropped.
-/

set_option autoImplicit false

namespace S3Uploader

/-! ## Go values -/

/-- A Go `string`: a sequence of bytes; `len` is the number of bytes. -/
abbrev GoString := List UInt8

/-- The bytes (UTF-8) of a string literal, used to write concrete inputs. -/
def goStr (s : String) : GoString := s.data.flatMap String.utf8EncodeChar

/-- Go `s[n:]`: the bytes of `s` from offset `n` on.  The slice expression panics at run time
("slice bounds out of range") when `n > len(s)`; that case is `none`. -/
def sliceFrom (s : GoString) (n : Nat) : Option GoString :=
  if n ≤ s.length then some (s.drop n) else none

/-- A Go `error` value.  `skipDir` and `skipAll` are the two sentinels `filepath.Walk` compares
against; `wrapped` is `fmt.Errorf("...: %w", cause)`. -/
inductive Error where
  | skipDir
  | skipAll
  | other (text : GoString)
  | wrapped (context : GoString) (cause : Error)
  deriving DecidableEq

/-- The run-time panics the program can raise. -/
inductive Panic where
  /-- A method call on a nil interface value (`info.IsDir()`, `fileInfo.Size()`). -/
  | nilDereference
  /-- The slice expression `s[low:]` with `low > len(s)`. -/
  | sliceBounds (low : Nat) (len : Nat)
  deriving DecidableEq

/-- The result of running a piece of the program from a state: it returns a value, or it
panics; either way the effects made so far are kept. -/
inductive Outcome (σ α : Type) where
  | ret (val : α) (st : σ)
  | panic (p : Panic) (st : σ)
  deriving DecidableEq

/-- The effects left behind, however the piece ended. -/
def Outcome.state {σ α : Type} : Outcome σ α → σ
  | .ret _ st => st
  | .panic _ st => st

/-! ## The data model (`models/file.go`) and the program state -/

/-- The row type `models.File`; the bookkeeping columns of the embedded `gorm.Model` play no
part in the pipeline and are left out. -/
structure File where
  ID : GoString
  Url : GoString
  IsConfirmed : Bool
  deriving DecidableEq

/-- One call of `uploadToS3`, by its arguments. -/
structure UploadCall where
  filePath : GoString
  bucket : GoString
  key : GoString
  deriving DecidableEq

/-- A line written with `log.Printf` by the walk callback. -/
inductive LogLine where
  /-- The line "Failed to upload <path>: <err>". -/
  | failedToUpload (path : GoString) (err : Error)
  /-- The line "Uploaded <path> to <url>". -/
  | uploaded (path : GoString) (url : GoString)
  deriving DecidableEq

/-- History of one non-directory entry the callback dealt with to the end: whether its upload
returned no error and whether its `Create` inserted a row. -/
structure Processed where
  path : GoString
  uploadOk : Bool
  createOk : Bool
  deriving DecidableEq

/-- A Go `map[string]string` as an association list with at most one pair per key. -/
abbrev GoMap := List (GoString × GoString)

/-- The assignment `m[k] = v`: overwrite the pair of `k` if there is one, add one otherwise. -/
def mapSet (m : GoMap) (k v : GoString) : GoMap :=
  if m.any (fun kv => kv.1 == k) then m.map (fun kv => if kv.1 = k then (k, v) else kv)
  else m ++ [(k, v)]

/-- The lookup `m[k]`, `none` when `k` has no pair. -/
def mapGet (m : GoMap) (k : GoString) : Option GoString :=
  (m.find? (fun kv => kv.1 == k)).map Prod.snd

/-- The keys of the map. -/
def mapKeys (m : GoMap) : List GoString := m.map Prod.fst

/-- The effects of a run so far.  `uploads`, `creates` and `history` are history variables:
they record the calls made and are read by no code. -/
structure State where
  /-- Every call of `uploadToS3` so far, in order. -/
  uploads : List UploadCall
  /-- The objects put in the store: bucket and key of every `PutObject` that succeeded. -/
  objects : List (GoString × GoString)
  /-- The argument of every `Create` call so far, in order. -/
  creates : List File
  /-- The rows of the table: the files whose `Create` succeeded, with the generated ID. -/
  records : List File
  /-- The map `fileNameAndID` of `main`. -/
  fileNameAndID : GoMap
  /-- The lines logged by the callback. -/
  logs : List LogLine
  /-- The non-directory entries the callback finished, in order. -/
  history : List Processed
  deriving DecidableEq

/-- The state when `main` starts. -/
def State.init : State :=
  { uploads := [], objects := [], creates := [], records := [], fileNameAndID := [],
    logs := [], history := [] }

/-! ## The world outside the process -/

/-- How one call of `uploadToS3` goes: which of its calls to the outside is the first to fail,
if any.  A later call happens only when the earlier ones succeeded. -/
inductive UploadCourse where
  /-- `session.NewSession` returns `err`. -/
  | sessionFails (err : Error)
  /-- The session is made and `os.Open(filePath)` returns `err`. -/
  | openFails (err : Error)
  /-- The file is open and `file.Stat()` fails: it returns a nil `FileInfo` (and an error the
  code discards). -/
  | statFails
  /-- The file is read and `PutObject` returns `err`; no object is stored. -/
  | putFails (err : Error)
  /-- Session, open, stat and `PutObject` all succeed; the object is stored. -/
  | allSucceed
  deriving DecidableEq

/-- What `os.FileInfo` tells the callback: `IsDir()`. -/
structure FileInfo where
  isDir : Bool
  deriving DecidableEq

mutual
/-- What `os.Lstat` finds at a path, with what lies below it. -/
inductive Lstat where
  /-- `Lstat` fails with `err` (the path does not exist, cannot be reached, ...). -/
  | fails (err : Error)
  /-- An entry that is not a directory: a regular file, a symlink, a special file. -/
  | file
  /-- A directory.  `readErr` is the error of reading its names (`none`: readable); `entries`
  are its names in the sorted order `filepath.Walk` visits them. -/
  | dir (readErr : Option Error) (entries : Entries)
/-- The names of a directory, each with the path `filepath.Join(dirPath, name)` that
`filepath.Walk` computes for it and with what `Lstat` finds there. -/
inductive Entries where
  | nil
  | cons (path : GoString) (node : Lstat) (rest : Entries)
end

/-- The outside of the process.  Environment variables are read after `godotenv.Load`. -/
structure World where
  /-- The error of `godotenv.Load()`, `none` when the `.env` file loads. -/
  dotenv : Option Error
  S3_DIR_PATH : GoString
  S3_BUCKET : GoString
  S3_ACCESS_KEY : GoString
  S3_SECRET_KEY : GoString
  S3_REGION : GoString
  S3_ENDPOINT : GoString
  DATABASE_NAME : GoString
  DATABASE_USER : GoString
  DATABASE_PASSWORD : GoString
  DATABASE_HOST : GoString
  /-- The error of `gorm.Open` in `Storage.Connect`, `none` when the connection is made. -/
  gormOpen : Option Error
  /-- The error of `AutoMigrate` in `Storage.MakeMigrations`, `none` when it succeeds. -/
  autoMigrate : Option Error
  /-- What `os.Lstat(S3_DIR_PATH)` finds, with the tree below it. -/
  tree : Lstat
  /-- The course of the call of `uploadToS3` for `filePath`, made after `n` earlier calls. -/
  upload : (n : Nat) → (filePath : GoString) → UploadCourse
  /-- The outcome of the `Create` call made after `n` earlier ones: the identifier the database
  generates for the row, or `none` when the insert fails. -/
  create : (n : Nat) → File → Option GoString

/-! ## `uploadToS3` (main.go, lines 65-100) -/

set_option linter.unusedVariables false in
/-- The function `uploadToS3`.  It returns the pair `(url, err)` of the source, or panics when
`file.Stat()` has returned a nil `FileInfo` (`fileInfo.Size()`, line 83). -/
def uploadToS3 (w : World) (filePath bucket key accessKey secretKey : GoString) (st : State) :
    Outcome State (GoString × Option Error) :=
  let st1 := { st with uploads := st.uploads ++ [⟨filePath, bucket, key⟩] }
  match w.upload st.uploads.length filePath with
  | .sessionFails err => .ret ([], some err) st1      -- lines 72-74
  | .openFails err => .ret ([], some err) st1         -- lines 76-79
  | .statFails => .panic .nilDereference st1          -- lines 82-83
  | .putFails err => .ret ([], some err) st1          -- lines 95-97
  | .allSucceed =>                                    -- line 99
      .ret (w.S3_ENDPOINT ++ goStr "/" ++ bucket ++ goStr "/" ++ key, none)
        { st1 with objects := st1.objects ++ [(bucket, key)] }

/-! ## The record store (main.go, lines 20-63 and 102-122) -/

/-- The struct `Config` of `config.go`. -/
structure Config where
  Database : GoString
  User : GoString
  Password : GoString
  Host : GoString
  Port : Int
  deriving DecidableEq

/-- The struct `Storage`; `db` tells whether the handle `*gorm.DB` is set (not nil). -/
structure Storage where
  db : Bool
  cfg : Config
  deriving DecidableEq

/-- The ways `main` ends in `log.Fatal` / `log.Fatalf`. -/
inductive Fatal where
  /-- The exit "Error loading .env file". -/
  | loadingEnv
  /-- The exit "Failed to connect to database: <err>". -/
  | connect (err : Error)
  /-- The exit "Failed to make migrations: <err>". -/
  | migrations (err : Error)
  /-- The exit "Error walking through directory: <err>". -/
  | walking (err : Error)
  deriving DecidableEq

/-- The function `NewStorage`. -/
def NewStorage (cfg : Config) : Storage := { db := false, cfg := cfg }

/-- The method `Storage.Connect`: on success the handle is set. -/
def Storage.Connect (w : World) (s : Storage) : Storage × Option Error :=
  match w.gormOpen with
  | some err => (s, some err)
  | none => ({ s with db := true }, none)

/-- The method `Storage.MakeMigrations`. -/
def Storage.MakeMigrations (w : World) (_s : Storage) : Option Error :=
  match w.autoMigrate with
  | some err => some (.wrapped (goStr "failed to migrate database") err)
  | none => none

/-- The function `InitializeDB`: the connected storage, or the fatal exit it ends in. -/
def InitializeDB (w : World) : Except Fatal Storage :=
  let cfg : Config :=
    { Database := w.DATABASE_NAME, User := w.DATABASE_USER, Password := w.DATABASE_PASSWORD,
      Host := w.DATABASE_HOST, Port := 5432 }
  let storage := NewStorage cfg
  match storage.Connect w with
  | (_, some err) => .error (.connect err)
  | (storage, none) =>
    match storage.MakeMigrations w with
    | some err => .error (.migrations err)
    | none => .ok storage

/-- The call `db.Init().Create(&file)`: the file as it stands after the call (with the generated
ID when the insert succeeded, untouched otherwise) and the new state.  The result of `Create`
is not looked at by the caller. -/
def Create (w : World) (file : File) (st : State) : File × State :=
  let st1 := { st with creates := st.creates ++ [file] }
  match w.create st.creates.length file with
  | some id =>
      let stored : File := { file with ID := id }
      (stored, { st1 with records := st1.records ++ [stored] })
  | none => (file, st1)

/-! ## `filepath.Walk` (Go standard library, `path/filepath`)

The walk is library code; it is embedded after its source (as of Go 1.20, which has `SkipAll`)
so that the callback's replies (`nil`, `SkipDir`, another error, a panic) have their effect on
the traversal. -/

/-- The type `filepath.WalkFunc`, over a state `σ`: path, info (nil is `none`), err. -/
abbrev WalkFunc (σ : Type) := GoString → Option FileInfo → Option Error → σ → Outcome σ (Option Error)

mutual
/-- The unexported `walk(path, info, walkFn)` of `path/filepath`.  For a node whose `Lstat`
failed it is the call `walkFn(path, nil, err)` that `Walk` and the loop over the names make
in its place. -/
def walk {σ : Type} (fn : WalkFunc σ) (path : GoString) : Lstat → σ → Outcome σ (Option Error)
  | .fails err, s => fn path none (some err) s
  | .file, s => fn path (some ⟨false⟩) none s
  | .dir readErr entries, s =>
    match fn path (some ⟨true⟩) readErr s with
    | .panic p s1 => .panic p s1
    | .ret err1 s1 =>
      if readErr.isSome ∨ err1.isSome then .ret err1 s1
      else walkEntries fn entries s1
/-- The loop of `walk` over the names of a directory: an error from an entry ends the loop,
except `SkipDir` from a directory or from the callback on a failed `Lstat`. -/
def walkEntries {σ : Type} (fn : WalkFunc σ) : Entries → σ → Outcome σ (Option Error)
  | .nil, s => .ret none s
  | .cons path node rest, s =>
    match walk fn path node s with
    | .panic p s1 => .panic p s1
    | .ret none s1 => walkEntries fn rest s1
    | .ret (some err) s1 =>
      match node with
      | .file => .ret (some err) s1
      | _ => if err = .skipDir then walkEntries fn rest s1 else .ret (some err) s1
end

/-- The function `filepath.Walk(root, fn)`: `SkipDir` and `SkipAll` at the top are no error. -/
def Walk {σ : Type} (fn : WalkFunc σ) (root : GoString) (tree : Lstat) (s : σ) :
    Outcome σ (Option Error) :=
  match walk fn root tree s with
  | .panic p s1 => .panic p s1
  | .ret err s1 => if err = some .skipDir ∨ err = some .skipAll then .ret none s1 else .ret err s1

/-! ## `main` (main.go, lines 124-166) -/

/-- The line the callback logs after the upload (lines 145-149). -/
def uploadLog (path url : GoString) : Option Error → LogLine
  | some e => .failedToUpload path e
  | none => .uploaded path url

/-- The expression `path[len(dir):]` (lines 143 and 153): `none` when the slice panics. -/
def mapKey (dir path : GoString) : Option GoString := sliceFrom path dir.length

/-- The expression `dir + path[len(dir):]` of line 143, the key under which the entry is
uploaded: `none` when the slice panics. -/
def storageKey (dir path : GoString) : Option GoString :=
  match sliceFrom path dir.length with
  | none => none
  | some rest => some (dir ++ rest)

set_option linter.unusedVariables false in
/-- The function literal passed to `filepath.Walk` (lines 141-156), with the variables it
captures (`dir`, `bucket`, `accessKey`, `secretKey`; the map and the database are in the
state).  The parameter `err` is not read.  `info.IsDir()` panics on a nil `info`, and each of
the two slice expressions `path[len(dir):]` panics when `path` is shorter than `dir`. -/
def walkFn (w : World) (dir bucket accessKey secretKey : GoString) : WalkFunc State :=
  fun path info err st =>
    match info with
    | none => .panic .nilDereference st
    | some fileInfo =>
      if !fileInfo.isDir then
        match storageKey dir path with
        | none => .panic (.sliceBounds dir.length path.length) st
        | some relativePath =>
          match uploadToS3 w path bucket relativePath accessKey secretKey st with
          | .panic p st1 => .panic p st1
          | .ret (url, uploadErr) st1 =>
            let st2 := { st1 with logs := st1.logs ++ [uploadLog path url uploadErr] }
            let file : File := { ID := [], Url := url, IsConfirmed := true }
            let created := Create w file st2
            match mapKey dir path with
            | none => .panic (.sliceBounds dir.length path.length) created.2
            | some name =>
              .ret none { created.2 with
                fileNameAndID := mapSet created.2.fileNameAndID name created.1.ID,
                history := created.2.history ++
                  [⟨path, uploadErr.isNone, (w.create st2.creates.length file).isSome⟩] }
      else .ret none st

/-- How a run of the program ends. -/
inductive Exit where
  /-- A `log.Fatal` / `log.Fatalf` exit (status 1). -/
  | fatal (f : Fatal)
  /-- A run-time panic (status 2). -/
  | panicked (p : Panic)
  /-- The end of `main` (status 0) after printing "File name and ID:" and then one line
  "<key> <value>" per pair of the map; `report` is those pairs (Go prints them in no
  particular order). -/
  | normal (report : List (GoString × GoString))
  deriving DecidableEq

/-- The function `main`: how the run ends and the effects it leaves.  The deferred `db.Close()`
touches none of the effects kept in the state (and is not run on a `log.Fatal` exit). -/
def main (w : World) : Exit × State :=
  match w.dotenv with
  | some _ => (.fatal .loadingEnv, State.init)
  | none =>
    let dir := w.S3_DIR_PATH
    let bucket := w.S3_BUCKET
    let accessKey := w.S3_ACCESS_KEY
    let secretKey := w.S3_SECRET_KEY
    match InitializeDB w with
    | .error f => (.fatal f, State.init)
    | .ok _db =>
      match Walk (walkFn w dir bucket accessKey secretKey) dir w.tree State.init with
      | .panic p st => (.panicked p, st)
      | .ret (some err) st => (.fatal (.walking err), st)
      | .ret none st => (.normal st.fileNameAndID, st)

/-! ## The walk as a sequence of callback invocations -/

/-- One invocation of the callback by the walk. -/
structure Visit where
  path : GoString
  info : Option FileInfo
  err : Option Error
  deriving DecidableEq

mutual
/-- The invocations `filepath.Walk` makes below `path` when the callback answers `nil` each
time: the entry itself, then (for a readable directory) its names in order. -/
def visits (path : GoString) : Lstat → List Visit
  | .fails err => [⟨path, none, some err⟩]
  | .file => [⟨path, some ⟨false⟩, none⟩]
  | .dir readErr entries =>
    ⟨path, some ⟨true⟩, readErr⟩ :: (if readErr.isSome then [] else visitsEntries entries)
/-- The invocations for the names of a directory, in order. -/
def visitsEntries : Entries → List Visit
  | .nil => []
  | .cons path node rest => visits path node ++ visitsEntries rest
end

/-- The callback run on each invocation in turn, up to the first that panics or returns an
error. -/
def runVisits {σ : Type} (fn : WalkFunc σ) : List Visit → σ → Outcome σ (Option Error)
  | [], s => .ret none s
  | v :: vs, s =>
    match fn v.path v.info v.err s with
    | .panic p s1 => .panic p s1
    | .ret none s1 => runVisits fn vs s1
    | .ret (some err) s1 => .ret (some err) s1

/-- The invocation is for an entry that is not a directory (its info is there and `IsDir()`
is false). -/
def Visit.isFile (v : Visit) : Bool :=
  match v.info with
  | some fileInfo => !fileInfo.isDir
  | none => false

/-- The paths of the non-directory entries among the invocations, in walk order. -/
def filePaths (vs : List Visit) : List GoString := (vs.filter Visit.isFile).map Visit.path

/-- The names of a directory that holds only entries that are not directories, by their
paths. -/
def Entries.ofFiles : List GoString → Entries
  | [] => .nil
  | p :: ps => .cons p .file (Entries.ofFiles ps)

/-- The number of entries in the history for which the upload returned no error and the
`Create` inserted a row. -/
def bothSucceeded (st : State) : Nat :=
  st.history.countP (fun h => h.uploadOk && h.createOk)

/-! ## Predicates used in the proofs -/

/-- A callback that never returns an error. -/
def NeverErrs {σ : Type} (fn : WalkFunc σ) : Prop :=
  ∀ path info err s e s', fn path info err s ≠ .ret (some e) s'

/-- How the effects `st'` of running the callback over the invocations `vs` from `st` relate to
`st`, however the run ended: what was added to the history and to the upload calls is an
initial part of the non-directory entries of `vs`, and the `Create` calls, the rows and the map
keys come from the history. -/
def RunEffects (dir : GoString) (vs : List Visit) (st st' : State) : Prop :=
  ∃ (hs : List Processed) (us : List UploadCall),
    st'.history = st.history ++ hs ∧
    hs.map Processed.path <+: filePaths vs ∧
    st'.uploads = st.uploads ++ us ∧
    us.map UploadCall.filePath <+: filePaths vs ∧
    st'.creates.length = st.creates.length + hs.length ∧
    st'.records.length ≤ st.records.length + hs.length ∧
    (∀ k ∈ mapKeys st'.fileNameAndID,
      k ∈ mapKeys st.fileNameAndID ∨ k ∈ hs.map (fun h => h.path.drop dir.length)) ∧
    ((mapKeys st.fileNameAndID ++ (filePaths vs).map (List.drop dir.length)).Nodup →
      mapKeys st'.fileNameAndID =
        mapKeys st.fileNameAndID ++ hs.map (fun h => h.path.drop dir.length))

/-! ## Example worlds -/

/-- An example world: the root `data` holds the one file `data/a.txt`; the `.env` file loads,
the database connects and migrates, every upload succeeds and the n-th `Create` (counting from
0) generates the one-byte identifier `'1' + n`. -/
def demoWorld : World :=
  { dotenv := none, S3_DIR_PATH := goStr "data", S3_BUCKET := goStr "bucket",
    S3_ACCESS_KEY := goStr "ak", S3_SECRET_KEY := goStr "sk", S3_REGION := goStr "r",
    S3_ENDPOINT := goStr "https://s3", DATABASE_NAME := goStr "db", DATABASE_USER := goStr "u",
    DATABASE_PASSWORD := goStr "p", DATABASE_HOST := goStr "h", gormOpen := none,
    autoMigrate := none,
    tree := .dir none (.cons (goStr "data/a.txt") .file .nil),
    upload := fun _ _ => .allSucceed,
    create := fun n _ => some [UInt8.ofNat (49 + n)] }

/-- The example world with every upload failing at `os.Open`. -/
def failedUploadWorld : World :=
  { demoWorld with upload := fun _ _ => .openFails (.other (goStr "permission denied")) }

/-- The example world with every `Create` failing. -/
def createFailsWorld : World := { demoWorld with create := fun _ _ => none }

/-- The example world with the root missing: `os.Lstat("data")` fails. -/
def missingRootWorld : World :=
  { demoWorld with tree := .fails (.other (goStr "no such file or directory")) }

/-- The example world with an unreadable directory `data/sub` before the file `data/z.txt`. -/
def unreadableSubdirWorld : World :=
  { demoWorld with
    tree := .dir none
      (.cons (goStr "data/sub") (.dir (some (.other (goStr "permission denied"))) .nil)
        (.cons (goStr "data/z.txt") .file .nil)) }

/-- The example world with the database unreachable. -/
def noDatabaseWorld : World :=
  { demoWorld with gormOpen := some (.other (goStr "connection refused")) }

/-- A world whose root is given as `./d/` and holds the file `a`: `filepath.Join` cleans the
joined path, so the walk hands the callback the path `d/a`, one byte shorter than the root. -/
def shortPathWorld : World :=
  { demoWorld with
    S3_DIR_PATH := goStr "./d/",
    tree := .dir none (.cons (goStr "d/a") .file .nil) }

/-- A world whose root is given as `./d` and holds the files `a` and `b`: the walk hands the
callback the cleaned paths `d/a` and `d/b`, which do not begin with `./d`. -/
def uncleanRootWorld : World :=
  { demoWorld with
    S3_DIR_PATH := goStr "./d",
    tree := .dir none (.cons (goStr "d/a") .file (.cons (goStr "d/b") .file .nil)) }

/-- A world with a nested tree: `data/a.txt`, the directory `data/sub` with `data/sub/y.txt`,
and `data/x.txt`; the uploads of the first and of the third call fail. -/
def nestedWorld : World :=
  { demoWorld with
    tree := .dir none
      (.cons (goStr "data/a.txt") .file
        (.cons (goStr "data/sub") (.dir none (.cons (goStr "data/sub/y.txt") .file .nil))
          (.cons (goStr "data/x.txt") .file .nil))),
    upload := fun n _ =>
      if n = 1 then .allSucceed else .putFails (.other (goStr "access denied")) }

/-- A world whose root `data` holds only the two files `data/a.txt` and `data/b.txt`; every
upload succeeds, the first `Create` fails and the second succeeds. -/
def twoFilesWorld : World :=
  { demoWorld with
    tree := .dir none (Entries.ofFiles [goStr "data/a.txt", goStr "data/b.txt"]),
    create := fun n _ => if n = 0 then none else some [UInt8.ofNat (49 + n)] }

/-! ## Lemmas -/

theorem Create_fst (w : World) (f : File) (st : State) :
    (Create w f st).1 = { f with ID := (w.create st.creates.length f).getD f.ID } := by
  unfold Create; cases w.create st.creates.length f <;> rfl

theorem Create_snd (w : World) (f : File) (st : State) :
    (Create w f st).2 = { st with
      creates := st.creates ++ [f],
      records := st.records ++
        ((w.create st.creates.length f).map (fun id => { f with ID := id })).toList } := by
  unfold Create; cases w.create st.creates.length f <;> simp

theorem uploadToS3_returns (w : World) (filePath bucket key ak sk : GoString) (st : State)
    (hstat : w.upload st.uploads.length filePath ≠ .statFails) :
    ∃ (url : GoString) (uerr : Option Error),
      uploadToS3 w filePath bucket key ak sk st =
        .ret (url, uerr) { st with
          uploads := st.uploads ++ [⟨filePath, bucket, key⟩],
          objects := st.objects ++ (if uerr.isNone then [(bucket, key)] else []) } ∧
      (uerr.isNone = true ↔ w.upload st.uploads.length filePath = .allSucceed) ∧
      url = (if uerr.isNone then w.S3_ENDPOINT ++ goStr "/" ++ bucket ++ goStr "/" ++ key else []) := by
  unfold uploadToS3
  cases hc : w.upload st.uploads.length filePath with
  | statFails => exact absurd hc hstat
  | sessionFails e => exact ⟨[], some e, by simp, by simp, by simp⟩
  | openFails e => exact ⟨[], some e, by simp, by simp, by simp⟩
  | putFails e => exact ⟨[], some e, by simp, by simp, by simp⟩
  | allSucceed =>
    exact ⟨w.S3_ENDPOINT ++ goStr "/" ++ bucket ++ goStr "/" ++ key, none, by simp, by simp, by simp⟩

/-- What the callback leaves behind for a non-directory entry whose slice is in bounds and
whose upload returns. -/
theorem walkFn_file (w : World) (dir bucket ak sk path : GoString) (err : Option Error) (st : State)
    (hlen : dir.length ≤ path.length) (hstat : w.upload st.uploads.length path ≠ .statFails) :
    ∃ (st' : State) (url : GoString) (uploadOk : Bool),
      walkFn w dir bucket ak sk path (some ⟨false⟩) err st = .ret none st' ∧
      (uploadOk = true ↔ w.upload st.uploads.length path = .allSucceed) ∧
      url = (if uploadOk then
        w.S3_ENDPOINT ++ goStr "/" ++ bucket ++ goStr "/" ++ (dir ++ path.drop dir.length) else []) ∧
      st'.uploads = st.uploads ++ [⟨path, bucket, dir ++ path.drop dir.length⟩] ∧
      st'.objects = st.objects ++ (if uploadOk then [(bucket, dir ++ path.drop dir.length)] else []) ∧
      st'.creates = st.creates ++ [⟨[], url, true⟩] ∧
      st'.records = st.records ++
        ((w.create st.creates.length ⟨[], url, true⟩).map (fun id => ⟨id, url, true⟩)).toList ∧
      st'.fileNameAndID = mapSet st.fileNameAndID (path.drop dir.length)
        ((w.create st.creates.length ⟨[], url, true⟩).getD []) ∧
      st'.history = st.history ++
        [⟨path, uploadOk, (w.create st.creates.length ⟨[], url, true⟩).isSome⟩] := by
  obtain ⟨url, uerr, hu, hok, hurl⟩ :=
    uploadToS3_returns w path bucket (dir ++ path.drop dir.length) ak sk st hstat
  have hw : walkFn w dir bucket ak sk path (some ⟨false⟩) err st = .ret none
      { uploads := st.uploads ++ [⟨path, bucket, dir ++ path.drop dir.length⟩],
        objects := st.objects ++
          (if uerr.isNone then [(bucket, dir ++ path.drop dir.length)] else []),
        creates := st.creates ++ [⟨[], url, true⟩],
        records := st.records ++
          ((w.create st.creates.length ⟨[], url, true⟩).map (fun id => ⟨id, url, true⟩)).toList,
        fileNameAndID := mapSet st.fileNameAndID (path.drop dir.length)
          ((w.create st.creates.length ⟨[], url, true⟩).getD []),
        logs := st.logs ++ [uploadLog path url uerr],
        history := st.history ++
          [⟨path, uerr.isNone, (w.create st.creates.length ⟨[], url, true⟩).isSome⟩] } := by
    simp only [walkFn, storageKey, mapKey, sliceFrom, hlen, if_true, hu, Create_fst, Create_snd,
      Bool.not_false]
  exact ⟨_, url, uerr.isNone, hw, hok, hurl, rfl, rfl, rfl, rfl, rfl, rfl⟩

theorem walkFn_neverErrs (w : World) (dir bucket ak sk : GoString) :
    NeverErrs (walkFn w dir bucket ak sk) := by
  intro path info err s e s'
  unfold walkFn
  repeat' split
  all_goals simp

theorem runVisits_append {σ : Type} (fn : WalkFunc σ) (a b : List Visit) (s : σ) :
    runVisits fn (a ++ b) s =
      match runVisits fn a s with
      | .ret none s1 => runVisits fn b s1
      | other => other := by
  induction a generalizing s with
  | nil => simp [runVisits]
  | cons v vs ih =>
    simp only [List.cons_append, runVisits]
    cases h : fn v.path v.info v.err s with
    | panic p s1 => simp
    | ret e s1 =>
      cases e with
      | none => simp [ih]
      | some e => simp

theorem runVisits_neverErrs {σ : Type} (fn : WalkFunc σ) (h : NeverErrs fn) (vs : List Visit) (s : σ)
    (e : Error) (s' : σ) : runVisits fn vs s ≠ .ret (some e) s' := by
  induction vs generalizing s with
  | nil => simp [runVisits]
  | cons v vs ih =>
    simp only [runVisits]
    cases hf : fn v.path v.info v.err s with
    | panic p s1 => simp
    | ret e1 s1 =>
      cases e1 with
      | none => simpa using ih s1
      | some e1 => exact absurd hf (h _ _ _ _ _ _)

mutual
theorem walk_eq_runVisits {σ : Type} (fn : WalkFunc σ) (h : NeverErrs fn) :
    ∀ (tree : Lstat) (path : GoString) (s : σ), walk fn path tree s = runVisits fn (visits path tree) s
  | .fails err, path, s => by
    simp only [walk, visits, runVisits]
    cases hf : fn path none (some err) s with
    | panic p s1 => rfl
    | ret e1 s1 =>
      cases e1 with
      | none => rfl
      | some e1 => rfl
  | .file, path, s => by
    simp only [walk, visits, runVisits]
    cases hf : fn path (some ⟨false⟩) none s with
    | panic p s1 => rfl
    | ret e1 s1 =>
      cases e1 with
      | none => rfl
      | some e1 => rfl
  | .dir readErr entries, path, s => by
    simp only [walk, visits, runVisits]
    cases hf : fn path (some ⟨true⟩) readErr s with
    | panic p s1 => rfl
    | ret e1 s1 =>
      cases e1 with
      | some e1 => exact absurd hf (h _ _ _ _ _ _)
      | none =>
        cases readErr with
        | some r => simp [runVisits]
        | none => simpa using walkEntries_eq_runVisits fn h entries s1
theorem walkEntries_eq_runVisits {σ : Type} (fn : WalkFunc σ) (h : NeverErrs fn) :
    ∀ (entries : Entries) (s : σ), walkEntries fn entries s = runVisits fn (visitsEntries entries) s
  | .nil, s => by simp [walkEntries, visitsEntries, runVisits]
  | .cons path node rest, s => by
    simp only [walkEntries, visitsEntries, runVisits_append]
    rw [walk_eq_runVisits fn h node path s]
    cases hr : runVisits fn (visits path node) s with
    | panic p s1 => rfl
    | ret e1 s1 =>
      cases e1 with
      | some e1 => exact absurd hr (runVisits_neverErrs fn h _ _ _ _)
      | none => simpa using walkEntries_eq_runVisits fn h rest s1
end

theorem Walk_eq_runVisits {σ : Type} (fn : WalkFunc σ) (h : NeverErrs fn) (root : GoString)
    (tree : Lstat) (s : σ) : Walk fn root tree s = runVisits fn (visits root tree) s := by
  unfold Walk
  rw [walk_eq_runVisits fn h]
  cases hr : runVisits fn (visits root tree) s with
  | panic p s1 => rfl
  | ret e1 s1 =>
    cases e1 with
    | some e1 => exact absurd hr (runVisits_neverErrs fn h _ _ _ _)
    | none => simp

theorem any_key_iff (m : GoMap) (k : GoString) :
    m.any (fun kv => kv.1 == k) = true ↔ k ∈ mapKeys m := by
  simp [mapKeys, List.any_eq_true]

theorem mapKeys_mapSet (m : GoMap) (k v : GoString) :
    mapKeys (mapSet m k v) = if k ∈ mapKeys m then mapKeys m else mapKeys m ++ [k] := by
  unfold mapSet
  by_cases h : k ∈ mapKeys m
  · rw [if_pos ((any_key_iff m k).mpr h), if_pos h]
    simp only [mapKeys, List.map_map]
    apply List.map_congr_left
    intro kv _
    by_cases hk : kv.1 = k <;> simp [hk]
  · have h' : ¬ (m.any (fun kv => kv.1 == k) = true) := fun c => h ((any_key_iff m k).mp c)
    rw [if_neg h', if_neg h]
    simp [mapKeys]

theorem find_map_of_mem (m : GoMap) (k v : GoString) (h : k ∈ mapKeys m) :
    (m.map (fun kv => if kv.1 = k then (k, v) else kv)).find? (fun kv => kv.1 == k) = some (k, v) := by
  induction m with
  | nil => simp [mapKeys] at h
  | cons a m ih =>
    by_cases ha : a.1 = k
    · simp [ha]
    · have hm : k ∈ mapKeys m := by
        simp only [mapKeys, List.map_cons, List.mem_cons] at h
        rcases h with h | h
        · exact absurd h.symm ha
        · exact h
      simp [ha, List.find?_cons, ih hm]

theorem mapGet_mapSet (m : GoMap) (k v : GoString) : mapGet (mapSet m k v) k = some v := by
  unfold mapGet mapSet
  by_cases h : k ∈ mapKeys m
  · rw [if_pos ((any_key_iff m k).mpr h), find_map_of_mem m k v h]; rfl
  · have h' : ¬ (m.any (fun kv => kv.1 == k) = true) := fun c => h ((any_key_iff m k).mp c)
    rw [if_neg h']
    have hnone : m.find? (fun kv => kv.1 == k) = none := by
      rw [List.find?_eq_none]
      intro kv hkv hc
      exact h' (List.any_eq_true.mpr ⟨kv, hkv, hc⟩)
    simp [List.find?_append, hnone]

theorem walkFn_dir (w : World) (dir bucket ak sk path : GoString) (err : Option Error) (st : State) :
    walkFn w dir bucket ak sk path (some ⟨true⟩) err st = .ret none st := by
  simp [walkFn]

theorem walkFn_nil (w : World) (dir bucket ak sk path : GoString) (err : Option Error) (st : State) :
    walkFn w dir bucket ak sk path none err st = .panic .nilDereference st := by
  simp [walkFn]

theorem walkFn_short (w : World) (dir bucket ak sk path : GoString) (err : Option Error) (st : State)
    (h : path.length < dir.length) :
    walkFn w dir bucket ak sk path (some ⟨false⟩) err st =
      .panic (.sliceBounds dir.length path.length) st := by
  have : ¬ dir.length ≤ path.length := by omega
  simp [walkFn, storageKey, sliceFrom, this]

theorem walkFn_statFails (w : World) (dir bucket ak sk path : GoString) (err : Option Error)
    (st : State) (hlen : dir.length ≤ path.length)
    (hstat : w.upload st.uploads.length path = .statFails) :
    walkFn w dir bucket ak sk path (some ⟨false⟩) err st = .panic .nilDereference
      { st with uploads := st.uploads ++ [⟨path, bucket, dir ++ path.drop dir.length⟩] } := by
  simp [walkFn, storageKey, sliceFrom, hlen, uploadToS3, hstat]

theorem filePaths_cons_file (v : Visit) (vs : List Visit) (h : v.isFile = true) :
    filePaths (v :: vs) = v.path :: filePaths vs := by
  simp [filePaths, List.filter_cons, h]

theorem filePaths_cons_other (v : Visit) (vs : List Visit) (h : v.isFile = false) :
    filePaths (v :: vs) = filePaths vs := by
  simp [filePaths, List.filter_cons, h]

/-- A run in which nothing panics: every invocation has its info, every non-directory path is at
least as long as `dir`, and every upload returns. -/
theorem runVisits_walkFn_returns (w : World) (dir bucket ak sk : GoString) (vs : List Visit) :
    ∀ (st : State), (∀ v ∈ vs, v.info.isSome = true) →
      (∀ p ∈ filePaths vs, dir.length ≤ p.length) →
      (∀ n p, w.upload n p ≠ .statFails) →
      ∃ st', runVisits (walkFn w dir bucket ak sk) vs st = .ret none st' ∧
        st'.uploads = st.uploads ++
          (filePaths vs).map (fun p => ⟨p, bucket, dir ++ p.drop dir.length⟩) ∧
        st'.history.map Processed.path = st.history.map Processed.path ++ filePaths vs ∧
        (∀ h ∈ st'.history, h ∈ st.history ∨
          ∃ n, (h.uploadOk = true ↔ w.upload n h.path = .allSucceed)) := by
  induction vs with
  | nil => intro st _ _ _; exact ⟨st, by simp [runVisits, filePaths], by simp [filePaths],
      by simp [filePaths], fun h hh => Or.inl hh⟩
  | cons v vs ih =>
    intro st hinfo hlen hret
    obtain ⟨path, info, err⟩ := v
    have hi := hinfo ⟨path, info, err⟩ (List.mem_cons_self _ _)
    cases info with
    | none => simp at hi
    | some fi =>
      obtain ⟨isDir⟩ := fi
      have hinfo' : ∀ v ∈ vs, v.info.isSome = true := fun v hv => hinfo v (List.mem_cons_of_mem _ hv)
      cases isDir with
      | true =>
        have hf : filePaths (⟨path, some ⟨true⟩, err⟩ :: vs) = filePaths vs :=
          filePaths_cons_other _ _ rfl
        rw [hf] at hlen ⊢
        simp only [runVisits, walkFn_dir]
        exact ih st hinfo' hlen hret
      | false =>
        have hf : filePaths (⟨path, some ⟨false⟩, err⟩ :: vs) = path :: filePaths vs :=
          filePaths_cons_file _ _ rfl
        rw [hf] at hlen ⊢
        obtain ⟨st1, url, ok, hw, hok, -, hup, -, -, -, -, hhist⟩ :=
          walkFn_file w dir bucket ak sk path err st (hlen path (List.mem_cons_self _ _)) (hret _ _)
        obtain ⟨st', hrun, hu', hh', hok'⟩ :=
          ih st1 hinfo' (fun p hp => hlen p (List.mem_cons_of_mem _ hp)) hret
        refine ⟨st', ?_, ?_, ?_, ?_⟩
        · simp only [runVisits, hw]; exact hrun
        · rw [hu', hup]; simp
        · rw [hh', hhist]; simp
        · intro h hh
          rcases hok' h hh with h1 | h1
          · rw [hhist] at h1
            rcases List.mem_append.mp h1 with h2 | h2
            · exact Or.inl h2
            · right
              simp only [List.mem_singleton] at h2
              subst h2
              exact ⟨_, hok⟩
          · exact Or.inr h1

theorem RunEffects.stop (dir : GoString) (vs : List Visit) (st : State) : RunEffects dir vs st st :=
  ⟨[], [], by simp [List.nil_prefix]⟩

theorem runVisits_walkFn_effects (w : World) (dir bucket ak sk : GoString) (vs : List Visit) :
    ∀ (st : State), RunEffects dir vs st (runVisits (walkFn w dir bucket ak sk) vs st).state := by
  induction vs with
  | nil => intro st; exact RunEffects.stop dir [] st
  | cons v vs ih =>
    intro st
    obtain ⟨path, info, err⟩ := v
    cases info with
    | none =>
      simp only [runVisits, walkFn_nil, Outcome.state]
      exact RunEffects.stop _ _ _
    | some fi =>
      obtain ⟨isDir⟩ := fi
      cases isDir with
      | true =>
        have hf : filePaths (⟨path, some ⟨true⟩, err⟩ :: vs) = filePaths vs :=
          filePaths_cons_other _ _ rfl
        simp only [runVisits, walkFn_dir, RunEffects, hf]
        exact ih st
      | false =>
        have hf : filePaths (⟨path, some ⟨false⟩, err⟩ :: vs) = path :: filePaths vs :=
          filePaths_cons_file _ _ rfl
        by_cases hlen : dir.length ≤ path.length
        · by_cases hstat : w.upload st.uploads.length path = .statFails
          · simp only [runVisits, walkFn_statFails w dir bucket ak sk path err st hlen hstat,
              Outcome.state, RunEffects, hf]
            refine ⟨[], [⟨path, bucket, dir ++ path.drop dir.length⟩], ?_⟩
            simp [List.nil_prefix, List.prefix_cons_inj]
          · obtain ⟨st1, url, ok, hw, -, -, hup, -, hcr, hrec, hmap, hhist⟩ :=
              walkFn_file w dir bucket ak sk path err st hlen hstat
            obtain ⟨hs, us, h1, h2, h3, h4, h5, h6, h7, h8⟩ := ih st1
            have hrun : runVisits (walkFn w dir bucket ak sk) (⟨path, some ⟨false⟩, err⟩ :: vs) st
                = runVisits (walkFn w dir bucket ak sk) vs st1 := by
              simp only [runVisits, hw]
            rw [hrun]
            simp only [RunEffects, hf]
            refine ⟨⟨path, ok, (w.create st.creates.length ⟨[], url, true⟩).isSome⟩ :: hs,
              ⟨path, bucket, dir ++ path.drop dir.length⟩ :: us, ?_, ?_, ?_, ?_, ?_, ?_, ?_, ?_⟩
            · rw [h1, hhist]; simp
            · simpa [List.prefix_cons_inj] using h2
            · rw [h3, hup]; simp
            · simpa [List.prefix_cons_inj] using h4
            · rw [h5, hcr]; simp; omega
            · have : st1.records.length ≤ st.records.length + 1 := by
                rw [hrec]; cases w.create st.creates.length ⟨[], url, true⟩ <;> simp
              simp only [List.length_cons]; omega
            · intro k hk
              rcases h7 k hk with h | h
              · rw [hmap, mapKeys_mapSet] at h
                split_ifs at h with hmem
                · exact Or.inl h
                · rcases List.mem_append.mp h with h | h
                  · exact Or.inl h
                  · right; simp at h; simp [h]
              · right; simp only [List.map_cons, List.mem_cons]; exact Or.inr h
            · intro hnd
              have hnot : path.drop dir.length ∉ mapKeys st.fileNameAndID := by
                intro hmem
                rw [List.nodup_append] at hnd
                exact hnd.2.2 hmem (by simp)
              have hk1 : mapKeys st1.fileNameAndID =
                  mapKeys st.fileNameAndID ++ [path.drop dir.length] := by
                rw [hmap, mapKeys_mapSet, if_neg hnot]
              rw [h8 (by rw [hk1]; simpa [List.append_assoc] using hnd), hk1]
              simp
        · simp only [runVisits, walkFn_short w dir bucket ak sk path err st (by omega),
            Outcome.state]
          exact RunEffects.stop _ _ _

theorem InitializeDB_ok (w : World) (h2 : w.gormOpen = none) (h3 : w.autoMigrate = none) :
    ∃ db, InitializeDB w = .ok db := by
  simp [InitializeDB, Storage.Connect, Storage.MakeMigrations, h2, h3]

theorem main_started (w : World) (h1 : w.dotenv = none) (h2 : w.gormOpen = none)
    (h3 : w.autoMigrate = none) :
    main w =
      match runVisits (walkFn w w.S3_DIR_PATH w.S3_BUCKET w.S3_ACCESS_KEY w.S3_SECRET_KEY)
          (visits w.S3_DIR_PATH w.tree) State.init with
      | .panic p st => (.panicked p, st)
      | .ret _ st => (.normal st.fileNameAndID, st) := by
  obtain ⟨db, hdb⟩ := InitializeDB_ok w h2 h3
  simp only [main, h1, hdb, Walk_eq_runVisits _ (walkFn_neverErrs w _ _ _ _)]
  cases hr : runVisits (walkFn w w.S3_DIR_PATH w.S3_BUCKET w.S3_ACCESS_KEY w.S3_SECRET_KEY)
      (visits w.S3_DIR_PATH w.tree) State.init with
  | panic p st => rfl
  | ret e st =>
    cases e with
    | none => rfl
    | some e => exact absurd hr (runVisits_neverErrs _ (walkFn_neverErrs w _ _ _ _) _ _ _ _)

theorem main_state (w : World) :
    (main w).2 = State.init ∨
    (main w).2 = (runVisits (walkFn w w.S3_DIR_PATH w.S3_BUCKET w.S3_ACCESS_KEY w.S3_SECRET_KEY)
      (visits w.S3_DIR_PATH w.tree) State.init).state := by
  cases h1 : w.dotenv with
  | some e => left; simp [main, h1]
  | none =>
    cases h2 : w.gormOpen with
    | some e => left; simp [main, h1, InitializeDB, Storage.Connect, h2]
    | none =>
      cases h3 : w.autoMigrate with
      | some e => left; simp [main, h1, InitializeDB, Storage.Connect, Storage.MakeMigrations, h2, h3]
      | none =>
        right
        rw [main_started w h1 h2 h3]
        cases runVisits (walkFn w w.S3_DIR_PATH w.S3_BUCKET w.S3_ACCESS_KEY w.S3_SECRET_KEY)
          (visits w.S3_DIR_PATH w.tree) State.init <;> rfl

theorem main_never_fatal_walking (w : World) (e : Error) : (main w).1 ≠ .fatal (.walking e) := by
  cases h1 : w.dotenv with
  | some e => simp [main, h1]
  | none =>
    cases h2 : w.gormOpen with
    | some e => simp [main, h1, InitializeDB, Storage.Connect, h2]
    | none =>
      cases h3 : w.autoMigrate with
      | some e => simp [main, h1, InitializeDB, Storage.Connect, Storage.MakeMigrations, h2, h3]
      | none =>
        rw [main_started w h1 h2 h3]
        cases runVisits (walkFn w w.S3_DIR_PATH w.S3_BUCKET w.S3_ACCESS_KEY w.S3_SECRET_KEY)
          (visits w.S3_DIR_PATH w.tree) State.init <;> simp

theorem RunEffects_init (dir : GoString) (vs : List Visit) (st' : State)
    (h : RunEffects dir vs State.init st') : 
    st'.history.map Processed.path <+: filePaths vs ∧
    st'.uploads.map UploadCall.filePath <+: filePaths vs ∧
    st'.creates.length = st'.history.length ∧
    st'.records.length ≤ st'.history.length ∧
    (∀ k ∈ mapKeys st'.fileNameAndID, k ∈ st'.history.map (fun h => h.path.drop dir.length)) ∧
    (((filePaths vs).map (List.drop dir.length)).Nodup →
      mapKeys st'.fileNameAndID = st'.history.map (fun h => h.path.drop dir.length)) := by
  obtain ⟨hs, us, h1, h2, h3, h4, h5, h6, h7, h8⟩ := h
  simp only [State.init, List.nil_append, List.length_nil, Nat.zero_add, mapKeys, List.map_nil,
    List.not_mem_nil, false_or] at h1 h3 h5 h6 h7 h8
  rw [h1, h3]
  exact ⟨h2, h4, h5, h6, h7, h8⟩

theorem sliceFrom_isSome (s : GoString) (n : Nat) : (sliceFrom s n).isSome ↔ n ≤ s.length := by
  unfold sliceFrom; split <;> simp_all

theorem sliceFrom_append (r s : GoString) : sliceFrom (r ++ s) r.length = some s := by
  simp [sliceFrom]

theorem append_drop_eq_iff (dir path : GoString) (h : dir.length ≤ path.length) :
    dir ++ path.drop dir.length = path ↔ dir <+: path := by
  constructor
  · intro e; exact ⟨_, e⟩
  · rintro ⟨t, rfl⟩; simp

theorem mem_filePaths (vs : List Visit) (p : GoString) :
    p ∈ filePaths vs ↔ ∃ v ∈ vs, v.isFile = true ∧ v.path = p := by
  simp [filePaths, and_assoc]

theorem nodup_filePaths (vs : List Visit) (h : (vs.map Visit.path).Nodup) :
    (filePaths vs).Nodup :=
  List.Nodup.sublist ((List.filter_sublist vs).map Visit.path) h

theorem nodup_keys (dir : GoString) (l : List GoString) (hroot : ∀ p ∈ l, dir <+: p)
    (h : l.Nodup) : (l.map (List.drop dir.length)).Nodup := by
  apply List.Nodup.map_on _ h
  intro x hx y hy hxy
  obtain ⟨tx, rfl⟩ := hroot x hx
  obtain ⟨ty, rfl⟩ := hroot y hy
  simp only [List.drop_left] at hxy
  rw [hxy]

theorem visitsEntries_ofFiles (ps : List GoString) :
    visitsEntries (Entries.ofFiles ps) = ps.map (fun p => ⟨p, some ⟨false⟩, none⟩) := by
  induction ps with
  | nil => simp [Entries.ofFiles, visitsEntries]
  | cons p ps ih => simp [Entries.ofFiles, visitsEntries, visits, ih]

theorem filePaths_files (ps : List GoString) :
    filePaths (ps.map (fun p => (⟨p, some ⟨false⟩, none⟩ : Visit))) = ps := by
  induction ps with
  | nil => rfl
  | cons p ps ih => rw [List.map_cons, filePaths_cons_file ⟨p, some ⟨false⟩, none⟩ _ rfl, ih]

theorem visits_dir_ofFiles (root : GoString) (ps : List GoString) :
    visits root (.dir none (Entries.ofFiles ps)) =
      ⟨root, some ⟨true⟩, none⟩ :: ps.map (fun p => (⟨p, some ⟨false⟩, none⟩ : Visit)) := by
  simp [visits, visitsEntries_ofFiles]

theorem filePaths_dir_ofFiles (root : GoString) (ps : List GoString) :
    filePaths (visits root (.dir none (Entries.ofFiles ps))) = ps := by
  rw [visits_dir_ofFiles, filePaths_cons_other ⟨root, some ⟨true⟩, none⟩ _ rfl, filePaths_files]

theorem info_dir_ofFiles (root : GoString) (ps : List GoString) :
    ∀ v ∈ visits root (.dir none (Entries.ofFiles ps)), v.info.isSome = true := by
  rw [visits_dir_ofFiles]
  intro v hv
  simp at hv
  rcases hv with rfl | ⟨p, _, rfl⟩ <;> rfl

theorem main_effects (w : World) :
    RunEffects w.S3_DIR_PATH (visits w.S3_DIR_PATH w.tree) State.init (main w).2 := by
  rcases main_state w with h | h
  · rw [h]; exact RunEffects.stop _ _ _
  · rw [h]; exact runVisits_walkFn_effects w _ _ _ _ _ _

theorem mem_mapKeys_mapSet (m : GoMap) (k v : GoString) : k ∈ mapKeys (mapSet m k v) := by
  rw [mapKeys_mapSet]
  split_ifs with h
  · exact h
  · simp

/-- The callback after an upload that returned an error: the record step still runs, with an
empty URL. -/
theorem walkFn_after_failed_upload (w : World) (dir bucket ak sk path : GoString)
    (err : Option Error) (st : State) (e : Error) (hlen : dir.length ≤ path.length)
    (hfail : w.upload st.uploads.length path = .sessionFails e ∨
      w.upload st.uploads.length path = .openFails e ∨
      w.upload st.uploads.length path = .putFails e) :
    ∃ st', walkFn w dir bucket ak sk path (some ⟨false⟩) err st = .ret none st' ∧
      st'.objects = st.objects ∧
      st'.creates = st.creates ++ [⟨[], [], true⟩] ∧
      path.drop dir.length ∈ mapKeys st'.fileNameAndID := by
  have hstat : w.upload st.uploads.length path ≠ .statFails := by
    rcases hfail with h | h | h <;> simp [h]
  have hnot : w.upload st.uploads.length path ≠ .allSucceed := by
    rcases hfail with h | h | h <;> simp [h]
  obtain ⟨st', url, ok, hw, hok, hurl, -, hobj, hcr, -, hmap, -⟩ :=
    walkFn_file w dir bucket ak sk path err st hlen hstat
  have hok' : ok = false := by
    cases ok with
    | false => rfl
    | true => exact absurd (hok.mp rfl) hnot
  subst hok'
  simp only [Bool.false_eq_true, if_false] at hurl hobj
  subst hurl
  refine ⟨st', hw, by simpa using hobj, hcr, ?_⟩
  rw [hmap]
  exact mem_mapKeys_mapSet _ _ _

/-! ## The claims -/

/-- C1 (the code departs from the claim): in the example world whose only upload fails at
`os.Open`, `uploadToS3` returns the empty URL with that error, the callback logs the failure,
and yet `Create` is called with the row `{Url: "", IsConfirmed: true}`, the row is inserted,
and the file is in the final map under `/a.txt`.  It is so for every non-directory entry whose
upload returns an error: the callback still calls `Create`, with an empty URL, and still sets
the map at the key of the entry. -/
theorem failed_upload_is_still_recorded :
    (uploadToS3 failedUploadWorld (goStr "data/a.txt") (goStr "bucket") (goStr "data/a.txt")
      (goStr "ak") (goStr "sk") State.init =
        .ret ([], some (.other (goStr "permission denied")))
          { State.init with
            uploads := [⟨goStr "data/a.txt", goStr "bucket", goStr "data/a.txt"⟩] }) ∧
    (main failedUploadWorld).1 = .normal [(goStr "/a.txt", goStr "1")] ∧
    (main failedUploadWorld).2.logs =
      [.failedToUpload (goStr "data/a.txt") (.other (goStr "permission denied"))] ∧
    (main failedUploadWorld).2.objects = [] ∧
    (main failedUploadWorld).2.creates = [⟨[], [], true⟩] ∧
    (main failedUploadWorld).2.records = [⟨goStr "1", [], true⟩] ∧
    (main failedUploadWorld).2.fileNameAndID = [(goStr "/a.txt", goStr "1")] ∧
    (∀ (w : World) (dir bucket ak sk path : GoString) (err : Option Error) (st : State)
        (e : Error), dir.length ≤ path.length →
      (w.upload st.uploads.length path = .sessionFails e ∨
        w.upload st.uploads.length path = .openFails e ∨
        w.upload st.uploads.length path = .putFails e) →
      ∃ st', walkFn w dir bucket ak sk path (some ⟨false⟩) err st = .ret none st' ∧
        st'.objects = st.objects ∧
        st'.creates = st.creates ++ [⟨[], [], true⟩] ∧
        path.drop dir.length ∈ mapKeys st'.fileNameAndID) :=
  ⟨by decide, by decide, by decide, by decide, by decide, by decide, by decide,
    walkFn_after_failed_upload⟩

/-- C2: for every root `r` and suffix `s`, the callback on a non-directory entry with path
`r ++ s` whose upload call returns calls `uploadToS3` with the storage key `r ++ s` (the whole
path, root kept) and sets the map at the key `s` (root stripped); the two expressions of the
source evaluate to `r ++ s` and to `s`. -/
theorem storage_key_keeps_root_map_key_drops_it (w : World) (bucket ak sk r s : GoString)
    (err : Option Error) (st : State)
    (hret : w.upload st.uploads.length (r ++ s) ≠ .statFails) :
    storageKey r (r ++ s) = some (r ++ s) ∧ mapKey r (r ++ s) = some s ∧
    ∃ st' id, walkFn w r bucket ak sk (r ++ s) (some ⟨false⟩) err st = .ret none st' ∧
      st'.uploads = st.uploads ++ [⟨r ++ s, bucket, r ++ s⟩] ∧
      st'.fileNameAndID = mapSet st.fileNameAndID s id ∧
      mapGet st'.fileNameAndID s = some id := by
  have hlen : r.length ≤ (r ++ s).length := by simp
  obtain ⟨st', url, ok, hw, -, -, hup, -, -, -, hmap, -⟩ :=
    walkFn_file w r bucket ak sk (r ++ s) err st hlen hret
  simp only [List.drop_left] at hup hmap
  refine ⟨by simp [storageKey, sliceFrom], by simp [mapKey, sliceFrom], st', _, hw, hup, hmap, ?_⟩
  rw [hmap, mapGet_mapSet]

/-- The instance of C2 for the root `data` and the path `data/a/b.txt`: storage key
`data/a/b.txt`, map key `/a/b.txt`. -/
theorem storage_key_keeps_root_witness :
    storageKey (goStr "data") (goStr "data" ++ goStr "/a/b.txt") =
      some (goStr "data" ++ goStr "/a/b.txt") ∧
    mapKey (goStr "data") (goStr "data" ++ goStr "/a/b.txt") = some (goStr "/a/b.txt") ∧
    ∃ st' id, walkFn demoWorld (goStr "data") (goStr "bucket") (goStr "ak") (goStr "sk")
        (goStr "data" ++ goStr "/a/b.txt") (some ⟨false⟩) none State.init = .ret none st' ∧
      st'.uploads = State.init.uploads ++
        [⟨goStr "data" ++ goStr "/a/b.txt", goStr "bucket", goStr "data" ++ goStr "/a/b.txt"⟩] ∧
      st'.fileNameAndID = mapSet State.init.fileNameAndID (goStr "/a/b.txt") id ∧
      mapGet st'.fileNameAndID (goStr "/a/b.txt") = some id :=
  storage_key_keeps_root_map_key_drops_it demoWorld (goStr "bucket") (goStr "ak") (goStr "sk")
    (goStr "data") (goStr "/a/b.txt") none State.init (by decide)

/-- C3 (the code departs from the claim): with the root missing the callback is handed a nil
info and the run ends in a nil-dereference panic, not in the fatal exit; an unreadable
directory below the root is passed over and the run ends normally; and in no world at all does
`main` end in the fatal exit "Error walking through directory". -/
theorem walk_failures_never_reach_the_fatal_exit :
    main missingRootWorld = (.panicked .nilDereference, State.init) ∧
    (visits unreadableSubdirWorld.S3_DIR_PATH unreadableSubdirWorld.tree).map Visit.err =
      [none, some (.other (goStr "permission denied")), none] ∧
    (main unreadableSubdirWorld).1 = .normal [(goStr "/z.txt", goStr "1")] ∧
    (∀ (w : World) (e : Error), (main w).1 ≠ .fatal (.walking e)) :=
  ⟨by decide, by decide, by decide, main_never_fatal_walking⟩

/-- C4: `uploadToS3` returns the URL `endpoint/bucket/key` with a nil error exactly when the
session, the open and the `PutObject` all succeed; a nil error never comes with another URL;
and when the session, the open or the `PutObject` fails with `e` it returns the empty string
with `e`. -/
theorem uploadToS3_url_iff_all_succeed (w : World) (filePath bucket key ak sk : GoString)
    (st : State) :
    ((∃ st', uploadToS3 w filePath bucket key ak sk st =
        .ret (w.S3_ENDPOINT ++ goStr "/" ++ bucket ++ goStr "/" ++ key, none) st') ↔
      w.upload st.uploads.length filePath = .allSucceed) ∧
    (∀ url st', uploadToS3 w filePath bucket key ak sk st = .ret (url, none) st' →
      url = w.S3_ENDPOINT ++ goStr "/" ++ bucket ++ goStr "/" ++ key) ∧
    (∀ e, (w.upload st.uploads.length filePath = .sessionFails e ∨
        w.upload st.uploads.length filePath = .openFails e ∨
        w.upload st.uploads.length filePath = .putFails e) →
      ∃ st', uploadToS3 w filePath bucket key ak sk st = .ret ([], some e) st') := by
  unfold uploadToS3
  cases hc : w.upload st.uploads.length filePath <;> simp

/-- An instance of C4: in the example world the upload of `data/a.txt` under the key `k`
returns `https://s3/bucket/k`. -/
theorem uploadToS3_url_witness :
    ∃ st', uploadToS3 demoWorld (goStr "data/a.txt") (goStr "bucket") (goStr "k") (goStr "ak")
      (goStr "sk") State.init =
        .ret (demoWorld.S3_ENDPOINT ++ goStr "/" ++ goStr "bucket" ++ goStr "/" ++ goStr "k", none)
          st' :=
  (uploadToS3_url_iff_all_succeed demoWorld (goStr "data/a.txt") (goStr "bucket") (goStr "k")
    (goStr "ak") (goStr "sk") State.init).1.mpr rfl

/-- C5 as stated fails: the root is given as `./d/`, the walk delivers the file `d/a` with its
info and no upload fails, yet the callback panics in `path[len(dir):]` before any upload, so
the entry gets no upload attempt and the run does not reach the report. -/
theorem short_path_panics_before_upload :
    (∀ v ∈ visits shortPathWorld.S3_DIR_PATH shortPathWorld.tree, v.info.isSome = true) ∧
    (∀ n p, shortPathWorld.upload n p = .allSucceed) ∧
    filePaths (visits shortPathWorld.S3_DIR_PATH shortPathWorld.tree) = [goStr "d/a"] ∧
    main shortPathWorld = (.panicked (.sliceBounds 4 3), State.init) :=
  ⟨by decide, fun _ _ => rfl, by decide, by decide⟩

/-- C5, amended: the callback never returns an error; and when the start-up succeeds, every
entry is delivered with its info, every non-directory path is at least as long as the root
string and every upload call returns (a URL or an error), then whatever uploads and inserts
fail the run ends normally with the report, having made exactly one upload call per
non-directory entry, in walk order. -/
theorem per_file_failures_never_abort_walk (w : World)
    (hstart : w.dotenv = none ∧ w.gormOpen = none ∧ w.autoMigrate = none)
    (hinfo : ∀ v ∈ visits w.S3_DIR_PATH w.tree, v.info.isSome = true)
    (hlen : ∀ p ∈ filePaths (visits w.S3_DIR_PATH w.tree), w.S3_DIR_PATH.length ≤ p.length)
    (hret : ∀ n p, w.upload n p ≠ .statFails) :
    NeverErrs (walkFn w w.S3_DIR_PATH w.S3_BUCKET w.S3_ACCESS_KEY w.S3_SECRET_KEY) ∧
    ∃ st, main w = (.normal st.fileNameAndID, st) ∧
      st.uploads = (filePaths (visits w.S3_DIR_PATH w.tree)).map
        (fun p => ⟨p, w.S3_BUCKET, w.S3_DIR_PATH ++ p.drop w.S3_DIR_PATH.length⟩) := by
  refine ⟨walkFn_neverErrs w _ _ _ _, ?_⟩
  obtain ⟨st, hrun, hup, -, -⟩ := runVisits_walkFn_returns w w.S3_DIR_PATH w.S3_BUCKET
    w.S3_ACCESS_KEY w.S3_SECRET_KEY (visits w.S3_DIR_PATH w.tree) State.init hinfo hlen hret
  refine ⟨st, ?_, by simpa [State.init] using hup⟩
  rw [main_started w hstart.1 hstart.2.1 hstart.2.2, hrun]

/-- The amended C5 in the nested example world, where the first and the third upload fail. -/
theorem per_file_failures_never_abort_walk_witness :
    NeverErrs (walkFn nestedWorld nestedWorld.S3_DIR_PATH nestedWorld.S3_BUCKET
      nestedWorld.S3_ACCESS_KEY nestedWorld.S3_SECRET_KEY) ∧
    ∃ st, main nestedWorld = (.normal st.fileNameAndID, st) ∧
      st.uploads = (filePaths (visits nestedWorld.S3_DIR_PATH nestedWorld.tree)).map
        (fun p => ⟨p, nestedWorld.S3_BUCKET,
          nestedWorld.S3_DIR_PATH ++ p.drop nestedWorld.S3_DIR_PATH.length⟩) :=
  per_file_failures_never_abort_walk nestedWorld ⟨rfl, rfl, rfl⟩ (by decide) (by decide)
    (fun n p => by simp only [nestedWorld]; split <;> simp)

/-- C6: on a directory entry the callback returns nil and leaves the whole state as it was (no
upload, no `Create`, the map untouched), so the walk of a readable directory goes on with its
names; and after any run the upload calls and the finished entries are an initial part of the
non-directory entries of the walk, there is one `Create` call per finished entry and no more
rows than that, and every key of the map is `path[len(dir):]` of a non-directory entry. -/
theorem directory_entries_are_skipped (w : World) :
    (∀ path err st, walkFn w w.S3_DIR_PATH w.S3_BUCKET w.S3_ACCESS_KEY w.S3_SECRET_KEY
      path (some ⟨true⟩) err st = .ret none st) ∧
    (∀ path entries st,
      walk (walkFn w w.S3_DIR_PATH w.S3_BUCKET w.S3_ACCESS_KEY w.S3_SECRET_KEY) path
        (.dir none entries) st =
      walkEntries (walkFn w w.S3_DIR_PATH w.S3_BUCKET w.S3_ACCESS_KEY w.S3_SECRET_KEY)
        entries st) ∧
    (main w).2.uploads.map UploadCall.filePath <+: filePaths (visits w.S3_DIR_PATH w.tree) ∧
    (main w).2.history.map Processed.path <+: filePaths (visits w.S3_DIR_PATH w.tree) ∧
    (main w).2.creates.length = (main w).2.history.length ∧
    (main w).2.records.length ≤ (main w).2.history.length ∧
    (∀ k ∈ mapKeys (main w).2.fileNameAndID,
      ∃ v ∈ visits w.S3_DIR_PATH w.tree, v.info = some ⟨false⟩ ∧
        k = v.path.drop w.S3_DIR_PATH.length) := by
  obtain ⟨h1, h2, h3, h4, h5, -⟩ := RunEffects_init _ _ _ (main_effects w)
  refine ⟨fun path err st => walkFn_dir w _ _ _ _ path err st, ?_, h2, h1, h3, h4, ?_⟩
  · intro path entries st
    simp [walk, walkFn_dir]
  · intro k hk
    have hk' := h5 k hk
    simp only [List.mem_map] at hk'
    obtain ⟨h, hh, rfl⟩ := hk'
    have hp : h.path ∈ filePaths (visits w.S3_DIR_PATH w.tree) :=
      h1.subset (List.mem_map_of_mem _ hh)
    obtain ⟨v, hv, hfile, hpath⟩ := (mem_filePaths _ _).mp hp
    refine ⟨v, hv, ?_, by rw [hpath]⟩
    obtain ⟨p, info, e⟩ := v
    cases info with
    | none => simp [Visit.isFile] at hfile
    | some fi =>
      obtain ⟨d⟩ := fi
      cases d <;> simp_all [Visit.isFile]

/-- C7 as stated fails: with one file whose upload succeeds and whose `Create` fails the map
has one entry and no file has both succeeded; with the root given as `./d` and two files whose
upload and `Create` all succeed the map has one entry. -/
theorem map_size_is_not_both_succeeded :
    (main createFailsWorld).1 = .normal [(goStr "/a.txt", [])] ∧
    (main createFailsWorld).2.fileNameAndID.length = 1 ∧
    bothSucceeded (main createFailsWorld).2 = 0 ∧
    (main uncleanRootWorld).1 = .normal [([], goStr "2")] ∧
    (main uncleanRootWorld).2.fileNameAndID.length = 1 ∧
    bothSucceeded (main uncleanRootWorld).2 = 2 := by
  decide

/-- C7, amended: for a root that holds only non-directory entries `ps`, pairwise distinct and
each beginning with the root string, when the start-up succeeds and every upload succeeds, the
run ends normally having finished exactly the files `ps`, each with its upload succeeded, and
the number of entries of the map is the number of files (which is the number of files whose
upload succeeded), whatever the `Create` calls returned. -/
theorem map_size_is_number_of_files (w : World) (ps : List GoString)
    (hstart : w.dotenv = none ∧ w.gormOpen = none ∧ w.autoMigrate = none)
    (htree : w.tree = .dir none (Entries.ofFiles ps))
    (hdistinct : ps.Nodup) (hroot : ∀ p ∈ ps, w.S3_DIR_PATH <+: p)
    (hup : ∀ n p, w.upload n p = .allSucceed) :
    ∃ st, main w = (.normal st.fileNameAndID, st) ∧
      st.history.map Processed.path = ps ∧
      (∀ h ∈ st.history, h.uploadOk = true) ∧
      st.fileNameAndID.length = ps.length ∧
      st.fileNameAndID.length = st.history.countP (fun h => h.uploadOk) := by
  have hfp : filePaths (visits w.S3_DIR_PATH w.tree) = ps := by
    rw [htree, filePaths_dir_ofFiles]
  obtain ⟨st, hrun, -, hhist, hok⟩ := runVisits_walkFn_returns w w.S3_DIR_PATH w.S3_BUCKET
    w.S3_ACCESS_KEY w.S3_SECRET_KEY (visits w.S3_DIR_PATH w.tree) State.init
    (by rw [htree]; exact info_dir_ofFiles _ _)
    (by rw [hfp]; exact fun p hp => (hroot p hp).length_le)
    (fun n p => by rw [hup]; simp)
  have hmain : main w = (.normal st.fileNameAndID, st) := by
    rw [main_started w hstart.1 hstart.2.1 hstart.2.2, hrun]
  have heff := main_effects w
  rw [hmain] at heff
  obtain ⟨-, -, -, -, -, hkeys⟩ := RunEffects_init _ _ _ heff
  rw [hfp] at hhist hkeys
  have hk := hkeys (nodup_keys _ _ hroot hdistinct)
  have hhist' : st.history.map Processed.path = ps := by simpa [State.init] using hhist
  have hallok : ∀ h ∈ st.history, h.uploadOk = true := by
    intro h hh
    rcases hok h hh with hin | ⟨n, hn⟩
    · simp [State.init] at hin
    · exact hn.mpr (hup _ _)
  have hlen : st.fileNameAndID.length = ps.length := by
    have := congrArg List.length hk
    simp only [mapKeys, List.length_map] at this
    rw [this, ← hhist', List.length_map]
  refine ⟨st, hmain, hhist', hallok, hlen, ?_⟩
  rw [hlen, ← hhist', List.length_map]
  exact (List.countP_eq_length.mpr (by simpa using hallok)).symm

/-- The amended C7 in the world with the two files `data/a.txt` and `data/b.txt`, where the
first `Create` fails: the map still has two entries. -/
theorem map_size_is_number_of_files_witness :
    ∃ st, main twoFilesWorld = (.normal st.fileNameAndID, st) ∧
      st.history.map Processed.path = [goStr "data/a.txt", goStr "data/b.txt"] ∧
      (∀ h ∈ st.history, h.uploadOk = true) ∧
      st.fileNameAndID.length = [goStr "data/a.txt", goStr "data/b.txt"].length ∧
      st.fileNameAndID.length = st.history.countP (fun h => h.uploadOk) :=
  map_size_is_number_of_files twoFilesWorld [goStr "data/a.txt", goStr "data/b.txt"]
    ⟨rfl, rfl, rfl⟩ rfl (by decide) (by decide) (fun _ _ => rfl)

/-- C8: when `gorm.Open` fails with `e`, `InitializeDB` ends in the fatal exit "Failed to
connect to database", `main` ends in a fatal exit (that one, once the `.env` file has loaded),
and whatever the directory holds nothing has happened: the state is the initial one, no upload
call has been made and no object stored. -/
theorem no_upload_when_connect_fails (w : World) (e : Error) (h : w.gormOpen = some e) :
    InitializeDB w = .error (.connect e) ∧
    (∃ f, (main w).1 = .fatal f) ∧
    (w.dotenv = none → (main w).1 = .fatal (.connect e)) ∧
    (main w).2 = State.init ∧
    (main w).2.uploads = [] ∧ (main w).2.objects = [] := by
  have hdb : InitializeDB w = .error (.connect e) := by
    simp [InitializeDB, Storage.Connect, h]
  refine ⟨hdb, ?_⟩
  cases hd : w.dotenv with
  | some e1 => simp [main, hd, State.init]
  | none => simp [main, hd, hdb, State.init]

/-- C8 in the example world with the database unreachable. -/
theorem no_upload_when_connect_fails_witness :
    InitializeDB noDatabaseWorld = .error (.connect (.other (goStr "connection refused"))) ∧
    (∃ f, (main noDatabaseWorld).1 = .fatal f) ∧
    (noDatabaseWorld.dotenv = none →
      (main noDatabaseWorld).1 = .fatal (.connect (.other (goStr "connection refused")))) ∧
    (main noDatabaseWorld).2 = State.init ∧
    (main noDatabaseWorld).2.uploads = [] ∧ (main noDatabaseWorld).2.objects = [] :=
  no_upload_when_connect_fails noDatabaseWorld (.other (goStr "connection refused")) rfl

/-- C9 as stated fails: with the root given as `./d` the walk visits the pairwise distinct
paths `./d`, `d/a`, `d/b`; the two files both get the empty map key, and after the run the map
holds the single entry of the second file although two files were finished. -/
theorem unclean_root_keys_collide :
    ((visits uncleanRootWorld.S3_DIR_PATH uncleanRootWorld.tree).map Visit.path).Nodup ∧
    filePaths (visits uncleanRootWorld.S3_DIR_PATH uncleanRootWorld.tree) =
      [goStr "d/a", goStr "d/b"] ∧
    mapKey uncleanRootWorld.S3_DIR_PATH (goStr "d/a") = some [] ∧
    mapKey uncleanRootWorld.S3_DIR_PATH (goStr "d/b") = some [] ∧
    (main uncleanRootWorld).2.history.map Processed.path = [goStr "d/a", goStr "d/b"] ∧
    (main uncleanRootWorld).2.fileNameAndID = [([], goStr "2")] := by
  decide

/-- C9, amended: when the visited paths are pairwise distinct and every non-directory path
begins with the root string, the map key of each non-directory entry is defined, distinct
entries have distinct keys, and after the run (however it ended) the keys of the map are the
keys of the finished entries, without repetition: the map has as many entries as entries were
finished, none overwritten. -/
theorem distinct_paths_under_root_give_distinct_keys (w : World)
    (hdistinct : ((visits w.S3_DIR_PATH w.tree).map Visit.path).Nodup)
    (hroot : ∀ p ∈ filePaths (visits w.S3_DIR_PATH w.tree), w.S3_DIR_PATH <+: p) :
    (∀ p ∈ filePaths (visits w.S3_DIR_PATH w.tree),
      mapKey w.S3_DIR_PATH p = some (p.drop w.S3_DIR_PATH.length)) ∧
    (∀ p ∈ filePaths (visits w.S3_DIR_PATH w.tree),
      ∀ q ∈ filePaths (visits w.S3_DIR_PATH w.tree),
        p ≠ q → mapKey w.S3_DIR_PATH p ≠ mapKey w.S3_DIR_PATH q) ∧
    mapKeys (main w).2.fileNameAndID =
      (main w).2.history.map (fun h => h.path.drop w.S3_DIR_PATH.length) ∧
    (mapKeys (main w).2.fileNameAndID).Nodup ∧
    (main w).2.fileNameAndID.length = (main w).2.history.length := by
  have hkey : ∀ p ∈ filePaths (visits w.S3_DIR_PATH w.tree),
      mapKey w.S3_DIR_PATH p = some (p.drop w.S3_DIR_PATH.length) := by
    intro p hp
    simp [mapKey, sliceFrom, (hroot p hp).length_le]
  have hnd := nodup_keys _ _ hroot (nodup_filePaths _ hdistinct)
  obtain ⟨h1, -, -, -, -, h6⟩ := RunEffects_init _ _ _ (main_effects w)
  have hk := h6 hnd
  refine ⟨hkey, ?_, hk, ?_, ?_⟩
  · intro p hp q hq hpq heq
    rw [hkey p hp, hkey q hq] at heq
    obtain ⟨tp, rfl⟩ := hroot p hp
    obtain ⟨tq, rfl⟩ := hroot q hq
    simp only [List.drop_left, Option.some.injEq] at heq
    exact hpq (by rw [heq])
  · rw [hk]
    have hpre : (main w).2.history.map (fun h => h.path.drop w.S3_DIR_PATH.length) <+:
        (filePaths (visits w.S3_DIR_PATH w.tree)).map (List.drop w.S3_DIR_PATH.length) := by
      have := h1.map (List.drop w.S3_DIR_PATH.length)
      simpa [List.map_map, Function.comp] using this
    exact hnd.sublist hpre.sublist
  · have := congrArg List.length hk
    simpa [mapKeys] using this

/-- The amended C9 in the nested example world (root `data`, three files). -/
theorem distinct_paths_under_root_witness :
    (∀ p ∈ filePaths (visits nestedWorld.S3_DIR_PATH nestedWorld.tree),
      mapKey nestedWorld.S3_DIR_PATH p = some (p.drop nestedWorld.S3_DIR_PATH.length)) ∧
    (∀ p ∈ filePaths (visits nestedWorld.S3_DIR_PATH nestedWorld.tree),
      ∀ q ∈ filePaths (visits nestedWorld.S3_DIR_PATH nestedWorld.tree),
        p ≠ q → mapKey nestedWorld.S3_DIR_PATH p ≠ mapKey nestedWorld.S3_DIR_PATH q) ∧
    mapKeys (main nestedWorld).2.fileNameAndID =
      (main nestedWorld).2.history.map (fun h => h.path.drop nestedWorld.S3_DIR_PATH.length) ∧
    (mapKeys (main nestedWorld).2.fileNameAndID).Nodup ∧
    (main nestedWorld).2.fileNameAndID.length = (main nestedWorld).2.history.length :=
  distinct_paths_under_root_give_distinct_keys nestedWorld (by decide) (by decide)

/-- C10: the storage key `dir + path[len(dir):]` is defined exactly when
`len(path) >= len(dir)`; it equals the path exactly when `dir` is a literal beginning of the
path, so for a path of sufficient length that does not begin with `dir` the key is defined
and differs from the path; and in the callback a non-directory entry with a shorter path
panics in the slice, one with a path in bounds is uploaded under that key. -/
theorem storageKey_defined_iff_in_bounds (dir path : GoString) :
    ((storageKey dir path).isSome ↔ dir.length ≤ path.length) ∧
    (storageKey dir path = some path ↔ dir <+: path) ∧
    (dir.length ≤ path.length → ¬ dir <+: path →
      ∃ key, storageKey dir path = some key ∧ key ≠ path) ∧
    (∀ (w : World) (bucket ak sk : GoString) (err : Option Error) (st : State),
      (path.length < dir.length →
        walkFn w dir bucket ak sk path (some ⟨false⟩) err st =
          .panic (.sliceBounds dir.length path.length) st) ∧
      (dir.length ≤ path.length →
        ∃ key, storageKey dir path = some key ∧
          (walkFn w dir bucket ak sk path (some ⟨false⟩) err st).state.uploads =
            st.uploads ++ [⟨path, bucket, key⟩])) := by
  have hdef : (storageKey dir path).isSome ↔ dir.length ≤ path.length := by
    unfold storageKey sliceFrom; split_ifs with h <;> simp [h]
  have hval : dir.length ≤ path.length →
      storageKey dir path = some (dir ++ path.drop dir.length) := by
    intro h; simp [storageKey, sliceFrom, h]
  have heq : storageKey dir path = some path ↔ dir <+: path := by
    constructor
    · intro h
      have hl : dir.length ≤ path.length := hdef.mp (by simp [h])
      rw [hval hl] at h
      exact (append_drop_eq_iff dir path hl).mp (Option.some.inj h)
    · intro h
      have hl : dir.length ≤ path.length := h.length_le
      rw [hval hl, (append_drop_eq_iff dir path hl).mpr h]
  refine ⟨hdef, heq, ?_, ?_⟩
  · intro hl hn
    exact ⟨_, hval hl, fun e => hn (heq.mp (by rw [hval hl, e]))⟩
  · intro w bucket ak sk err st
    refine ⟨fun h => walkFn_short w dir bucket ak sk path err st h, fun hl => ⟨_, hval hl, ?_⟩⟩
    by_cases hs : w.upload st.uploads.length path = .statFails
    · rw [walkFn_statFails w dir bucket ak sk path err st hl hs]; rfl
    · obtain ⟨st1, url, ok, hw, -, -, hup, -⟩ := walkFn_file w dir bucket ak sk path err st hl hs
      rw [hw]; exact hup

/-- An instance of C10: for the root `./d` and the path `d/a`, long enough but not beginning
with the root, the storage key is defined and is not the path. -/
theorem storageKey_unclean_root_witness :
    ∃ key, storageKey (goStr "./d") (goStr "d/a") = some key ∧ key ≠ goStr "d/a" :=
  (storageKey_defined_iff_in_bounds (goStr "./d") (goStr "d/a")).2.2.1 (by decide) (by decide)

end S3Uploader
